import Mathlib

/-!
Verification development for the moodpattern-tracker diary application.

The Lean definitions below are a shallow embedding of the Python sources:
  - diary/analysis_utils.py   (analyze_text_sentiment, extract_keywords)
  - diary/russian_sentiment.py (AdvancedRussianSentimentAnalyzer)
  - diary/models.py            (DiaryEntry.save, DiaryEntry._update_correlation)
  - diary/signals.py           (update_mood_correlation, recalculate_user_correlations)
  - diary/management/commands/recalculate.py (Command.recalculate_for_user)

Python floats are modelled by exact rationals (ℚ); the numeric values involved
in the claims are small decimals for which float arithmetic is exact.
Python strings are modelled by Lean String / List Char, with character
classes (\w, \s, \d, [а-яё]) modelled for the ASCII + Russian-Cyrillic
alphabet actually used by this program.
-/

/- Batteries marks the ℚ field operations `@[irreducible]`, which blocks
`decide` on concrete sentiment values; restore the default reducibility for
this development so that concrete runs of the embedded code evaluate. -/
attribute [local semireducible] Rat.add Rat.mul Rat.inv Rat.sub Rat.ofScientific

set_option maxRecDepth 8000

/-! ### Character classes -/

/-- ASCII lower-case letter. -/
def isAsciiLow (c : Char) : Bool := 'a' ≤ c && c ≤ 'z'

/-- ASCII upper-case letter. -/
def isAsciiUp (c : Char) : Bool := 'A' ≤ c && c ≤ 'Z'

/-- ASCII digit, Python `\d` for the texts this program handles. -/
def isDigitCh (c : Char) : Bool := '0' ≤ c && c ≤ '9'

/-- Lower-case Russian Cyrillic letter: the regex class `[а-яё]`. -/
def isRuLow (c : Char) : Bool := ('а' ≤ c && c ≤ 'я') || c = 'ё'

/-- Upper-case Russian Cyrillic letter `[А-ЯЁ]`. -/
def isRuUp (c : Char) : Bool := ('А' ≤ c && c ≤ 'Я') || c = 'Ё'

/-- Whitespace, Python `\s` (ASCII part, which is what diary texts contain). -/
def isSpaceCh (c : Char) : Bool := c = ' ' || c = '\t' || c = '\n' || c = '\r'

/-- Python `\w` (word character) restricted to the ASCII + Russian alphabet:
letters, digits and underscore. -/
def isWordCh (c : Char) : Bool :=
  isAsciiLow c || isAsciiUp c || isDigitCh c || c = '_' || isRuLow c || isRuUp c

/-- Python `str.lower()` on ASCII and Russian Cyrillic letters. -/
def toLowerRu (c : Char) : Char :=
  if isAsciiUp c then Char.ofNat (c.toNat + 32)
  else if 'А' ≤ c && c ≤ 'Я' then Char.ofNat (c.toNat + 32)
  else if c = 'Ё' then 'ё'
  else c

/-! ### Generic run splitting

`runsBy p l` is the list of maximal runs of characters satisfying `p`,
in order; characters not satisfying `p` act as separators. -/

def runsByAux (p : Char → Bool) : List Char → List Char → List (List Char)
  | [], acc => if acc.isEmpty then [] else [acc.reverse]
  | c :: rest, acc =>
    if p c then runsByAux p rest (c :: acc)
    else if acc.isEmpty then runsByAux p rest []
    else acc.reverse :: runsByAux p rest []

def runsBy (p : Char → Bool) (l : List Char) : List (List Char) :=
  runsByAux p l []

/-- Python `str.split()` with no argument: maximal runs of non-whitespace. -/
def pySplit (l : List Char) : List (List Char) :=
  runsBy (fun c => !(isSpaceCh c)) l

/-- Python `str.strip()`: drop leading and trailing whitespace. -/
def pyStrip (l : List Char) : List Char :=
  ((l.dropWhile isSpaceCh).reverse.dropWhile isSpaceCh).reverse

/-! ### Regex word extraction

`re.findall(r'\b[а-яё]{lo,hi}\b', text)` on a text whose characters are only
word characters and whitespace (which is the state after the two `re.sub`
cleanup passes): a match must be delimited by `\b` on both sides, and inside
a maximal run of word characters there is no `\b`, so the matches are exactly
the maximal word-character runs that consist solely of `[а-яё]` and whose
length lies in the window. -/

def findRuWords (lo hi : Nat) (l : List Char) : List (List Char) :=
  (runsBy isWordCh l).filter
    (fun w => w.all isRuLow && lo ≤ w.length && w.length ≤ hi)

/-- `re.sub(r'[^\w\s]', ' ', text)`: non-word, non-space characters become spaces. -/
def subNonWord (c : Char) : Char :=
  if isWordCh c || isSpaceCh c then c else ' '

/-- `re.sub(r'\d+', ' ', text)` replaces each digit run by one space; for word
extraction this is equivalent to replacing every digit by a space, which is how
it is modelled (the number of separator spaces does not affect the word runs). -/
def subDigit (c : Char) : Char :=
  if isDigitCh c then ' ' else c

/-! ### diary/analysis_utils.py: extract_keywords (lines 43-64) -/

/-- The local `stop_words` set of `extract_keywords`. -/
def ak_stop_words : List String :=
  ["это", "вот", "какой", "который", "сегодня", "завтра", "вчера",
   "очень", "просто", "можно", "нужно", "будет", "есть", "был",
   "была", "было", "были", "весь", "все", "всё", "сам", "сама",
   "само", "сами", "раз", "два", "три", "год", "года", "лет"]

/-- `extract_keywords(text)` from diary/analysis_utils.py:
lower-case, collapse punctuation and digits to spaces, take the
`\b[а-яё]{4,12}\b` matches, and drop stop words and words shorter than 4. -/
def extract_keywords (text : String) : List String :=
  let t := ((text.toList.map toLowerRu).map subNonWord).map subDigit
  let words := (findRuWords 4 12 t).map (fun w => String.mk w)
  words.filter (fun w => !(ak_stop_words.contains w) && 4 ≤ w.length)

example : extract_keywords "Сегодня работа шла хорошо! 123 abc" = ["работа", "хорошо"] := by decide

example : pySplit "не хорошо".toList = [['н', 'е'], ['х', 'о', 'р', 'о', 'ш', 'о']] := by decide

/-! ### diary/models.py: the (user, keyword) correlation row and its update

`MoodCorrelation` is keyed by (user, keyword) with a uniqueness constraint, so
the updater is modelled as acting on the single row for that pair:
`none` is "no row yet" (the `get_or_create` miss). -/

structure Correlation where
  correlation_score : ℚ
  occurrence_count : ℕ
  deriving DecidableEq, Repr

/-- `max(-10.0, min(10.0, x))` as used throughout the sources. -/
def clamp10 (x : ℚ) : ℚ := max (-10) (min 10 x)

/-- `DiaryEntry._update_correlation` (diary/models.py lines 77-111), restricted
to its effect on the (user, keyword) correlation row.  `get_or_create` with
`defaults` gives the `none` branch; the `if not created` block gives the
`some` branch. -/
def update_correlation (prior : Option Correlation) (mood_score : ℚ)
    (occurrence_increment : ℕ) : Correlation :=
  match prior with
  | none => ⟨mood_score, occurrence_increment⟩
  | some corr =>
    let total_occurrences := corr.occurrence_count + occurrence_increment
    let old_weight : ℚ := (corr.occurrence_count : ℚ) / (total_occurrences : ℚ)
    let new_weight : ℚ := (occurrence_increment : ℚ) / (total_occurrences : ℚ)
    ⟨clamp10 (corr.correlation_score * old_weight + mood_score * new_weight),
     total_occurrences⟩

/-- Folding a sequence of `(sentiment_score, occurrence_increment)` updates
over an initially absent correlation row. -/
def apply_updates (l : List (ℚ × ℕ)) : Option Correlation :=
  l.foldl (fun st u => some (update_correlation st u.1 u.2)) none

/-- Σ score_i · weight_i over an update sequence. -/
def wsum (l : List (ℚ × ℕ)) : ℚ := (l.map (fun u => u.1 * (u.2 : ℚ))).sum

/-- Σ weight_i over an update sequence. -/
def wtotal (l : List (ℚ × ℕ)) : ℕ := (l.map (fun u => u.2)).sum

lemma clamp10_eq_self {x : ℚ} (hlo : -10 ≤ x) (hhi : x ≤ 10) : clamp10 x = x := by
  unfold clamp10
  rw [min_eq_right hhi, max_eq_right hlo]

lemma clamp10_mem (x : ℚ) : -10 ≤ clamp10 x ∧ clamp10 x ≤ 10 := by
  unfold clamp10
  constructor
  · exact le_max_left _ _
  · exact max_le (by norm_num) (min_le_left _ _)

lemma wsum_cons (u : ℚ × ℕ) (l : List (ℚ × ℕ)) :
    wsum (u :: l) = u.1 * (u.2 : ℚ) + wsum l := by
  simp [wsum]

lemma wtotal_cons (u : ℚ × ℕ) (l : List (ℚ × ℕ)) :
    wtotal (u :: l) = u.2 + wtotal l := by
  simp [wtotal]

/-- Invariant step for the weighted-mean fold: starting from a row whose score
is the exact weighted mean `S / W` of past observations (with `S` bounded by
`±10·W`), the remaining updates land on the weighted mean of all observations. -/
lemma apply_updates_go (l : List (ℚ × ℕ)) :
    ∀ (S : ℚ) (W : ℕ), 1 ≤ W → -10 * (W : ℚ) ≤ S → S ≤ 10 * (W : ℚ) →
    (∀ u ∈ l, -10 ≤ u.1 ∧ u.1 ≤ 10 ∧ 1 ≤ u.2) →
    l.foldl (fun st u => some (update_correlation st u.1 u.2))
        (some ⟨S / (W : ℚ), W⟩)
      = some ⟨(S + wsum l) / ((W : ℚ) + (wtotal l : ℚ)), W + wtotal l⟩ := by
  induction l with
  | nil =>
    intro S W hW _ _ _
    simp [wsum, wtotal]
  | cons u rest ih =>
    intro S W hW hlo hhi hall
    obtain ⟨hx0, hx1, hk⟩ := hall u (List.mem_cons_self u rest)
    have hWpos : (0 : ℚ) < (W : ℚ) := by exact_mod_cast hW
    have hkpos : (0 : ℚ) < (u.2 : ℚ) := by exact_mod_cast hk
    have hWk : (0 : ℚ) < (W : ℚ) + (u.2 : ℚ) := by linarith
    have hmean : S / (W : ℚ) * ((W : ℚ) / ((W : ℚ) + (u.2 : ℚ))) +
        u.1 * ((u.2 : ℚ) / ((W : ℚ) + (u.2 : ℚ)))
        = (S + u.1 * (u.2 : ℚ)) / ((W : ℚ) + (u.2 : ℚ)) := by
      field_simp
    have hlo' : -10 * ((W : ℚ) + (u.2 : ℚ)) ≤ S + u.1 * (u.2 : ℚ) := by
      nlinarith
    have hhi' : S + u.1 * (u.2 : ℚ) ≤ 10 * ((W : ℚ) + (u.2 : ℚ)) := by
      nlinarith
    have hclamp : clamp10 ((S + u.1 * (u.2 : ℚ)) / ((W : ℚ) + (u.2 : ℚ)))
        = (S + u.1 * (u.2 : ℚ)) / ((W : ℚ) + (u.2 : ℚ)) := by
      apply clamp10_eq_self
      · rw [le_div_iff₀ hWk]; linarith
      · rw [div_le_iff₀ hWk]; linarith
    have hstep : update_correlation (some ⟨S / (W : ℚ), W⟩) u.1 u.2
        = ⟨(S + u.1 * (u.2 : ℚ)) / (((W + u.2 : ℕ)) : ℚ), W + u.2⟩ := by
      simp only [update_correlation, Correlation.mk.injEq]
      constructor
      · push_cast
        rw [hmean, hclamp]
      · trivial
    rw [List.foldl_cons, hstep,
      ih (S + u.1 * (u.2 : ℚ)) (W + u.2) (le_trans hW (Nat.le_add_right W u.2))
        (by push_cast; linarith) (by push_cast; linarith)
        (fun v hv => hall v (List.mem_cons_of_mem u hv))]
    congr 1
    rw [Correlation.mk.injEq]
    constructor
    · rw [wsum_cons]
      push_cast [wtotal_cons]
      ring_nf
    · rw [wtotal_cons]
      omega

/-! ### diary/russian_sentiment.py

The repository contains no `diary/sentiment_data/` directory, so
`_load_wordlist` always hits `FileNotFoundError` and falls back to the
defaults of `_get_default_words`; those defaults are the lexicons below. -/

def positive_words : List String :=
  ["хорош", "отличн", "прекрасн", "замечательн", "великолепн",
   "счастлив", "радост", "весел", "доволен", "успешн"]

def negative_words : List String :=
  ["плох", "ужасн", "отвратительн", "грустн", "печальн",
   "зл", "сердит", "больн", "устал", "проблем"]

def rs_intensifiers : List String := ["очень", "сильно", "крайне", "чрезвычайно"]

def rs_negations : List String := ["не", "ни", "нет", "без"]

/-- `_load_stopwords()` of diary/russian_sentiment.py. -/
def rs_stopwords : List String :=
  ["это", "вот", "какой", "который", "сегодня", "завтра", "вчера",
   "просто", "можно", "нужно", "будет", "есть", "был", "была",
   "было", "были", "весь", "все", "всё", "всего", "всем", "сам", "сама",
   "само", "сами", "раз", "два", "три", "год", "года", "лет",
   "как", "так", "там", "здесь", "тут", "где", "куда", "откуда",
   "почему", "зачем", "сколько", "когда", "что", "чтобы", "если"]

/-- Is the first list a leading segment of the second? -/
def listPre : List Char → List Char → Bool
  | [], _ => true
  | _ :: _, [] => false
  | a :: as, b :: bs => a == b && listPre as bs

/-- Python `word.endswith(e)`. -/
def strEndsIn (e word : String) : Bool :=
  listPre e.toList.reverse word.toList.reverse

/-- Python `sub in s`: contiguous-substring test. -/
def strHasSub (sub : String) (s : String) : Bool :=
  go sub.toList s.toList
where
  go (sub : List Char) : List Char → Bool
    | [] => sub.isEmpty
    | c :: rest => listPre sub (c :: rest) || go sub rest

/-- The `endings` list of `stem_word`, in source order (first match wins). -/
def ru_endings : List String :=
  ["ый", "ий", "ой", "ая", "яя", "ое", "ее", "ые", "ие",
   "ость", "ация", "ение", "анье", "ство", "изм",
   "нно", "енно", "ально"]

/-- `stem_word` (diary/russian_sentiment.py lines 69-83). -/
def stem_word (word : String) : String :=
  if word.length < 4 then word
  else
    match ru_endings.find? (fun e => strEndsIn e word) with
    | some e => String.mk (word.toList.take (word.toList.length - e.toList.length))
    | none => word

/-- The `'ё'`-to-`'е'` replacement of `preprocess_text`. -/
def yoToE (c : Char) : Char := if c = 'ё' then 'е' else c

/-- `re.sub(r'\s+', ' ', text)`: each maximal whitespace run becomes one space. -/
def collapseWsAux : List Char → Bool → List Char
  | [], _ => []
  | c :: rest, inRun =>
    if isSpaceCh c then
      if inRun then collapseWsAux rest true else ' ' :: collapseWsAux rest true
    else c :: collapseWsAux rest false

/-- `preprocess_text` (lines 55-66): lower-case, `ё`→`е`, collapse whitespace. -/
def preprocess_text (text : String) : String :=
  String.mk (collapseWsAux ((text.toList.map toLowerRu).map yoToE) false)

/-- Character classes of the tokenizer regex `\b[а-яё]+\b|[!?.,;:]+`:
word characters, scored punctuation, and separators. -/
inductive TokClass
  | word
  | punct
  | sep
  deriving DecidableEq

def tokClassOf (c : Char) : TokClass :=
  if isWordCh c then .word
  else if c = '!' || c = '?' || c = '.' || c = ',' || c = ';' || c = ':' then .punct
  else .sep

/-- Maximal same-class runs of non-separator characters, in order. -/
def classRunsAux : List Char → Option (TokClass × List Char) → List (TokClass × List Char)
  | [], none => []
  | [], some st => [(st.1, st.2.reverse)]
  | c :: rest, none =>
    if tokClassOf c = .sep then classRunsAux rest none
    else classRunsAux rest (some (tokClassOf c, [c]))
  | c :: rest, some st =>
    if tokClassOf c = st.1 then classRunsAux rest (some (st.1, c :: st.2))
    else if tokClassOf c = .sep then (st.1, st.2.reverse) :: classRunsAux rest none
    else (st.1, st.2.reverse) :: classRunsAux rest (some (tokClassOf c, [c]))

/-- `AdvancedRussianSentimentAnalyzer.tokenize` (lines 159-167).
`re.findall(r'\b[а-яё]+\b|[!?.,;:]+', text)`: the first branch needs `\b` on
both sides, so its matches are the maximal word-character runs made solely of
`[а-яё]`; the second branch yields the maximal runs of the punctuation class.
Then stop words and tokens of length ≤ 2 are filtered out. -/
def rs_tokenize (text : String) : List String :=
  let toks := (classRunsAux text.toList none).filterMap (fun r =>
    match r.1 with
    | .word => if r.2.all isRuLow then some (String.mk r.2) else none
    | .punct => some (String.mk r.2)
    | .sep => none)
  toks.filter (fun t => !(rs_stopwords.contains t) && 2 < t.length)

/-- `stemmed in lexicon or any(w in stemmed for w in lexicon)` (lines 214, 217). -/
def matchesAny (lexicon : List String) (stemmed : String) : Bool :=
  lexicon.contains stemmed || lexicon.any (fun w => strHasSub w stemmed)

/-- Base weight of one token (`self.weights['positive'] / ['negative']` or 0). -/
def token_base (tok : String) : ℚ :=
  let stemmed := stem_word tok
  if matchesAny positive_words stemmed then 1
  else if matchesAny negative_words stemmed then -1
  else 0

/-- One loop iteration's addition to `score` (lines 211-228): base weight,
then the `len(token) > 6` bonus `* 1.1`, then `* multiplier`. -/
def token_contrib (mult : ℚ) (tok : String) : ℚ :=
  let ts := token_base tok
  (if 6 < tok.length then ts * (11/10) else ts) * mult

/-- The `sentiment_words` entries appended by the iteration: `(token,
token_score * multiplier)` is recorded before the length bonus. -/
def token_sws (mult : ℚ) (tok : String) : List (String × ℚ) :=
  let ts := token_base tok
  if ts = 0 then [] else [(tok, ts * mult)]

def score_step (mult : ℚ) (tok : String) (rest : ℚ × List (String × ℚ)) :
    ℚ × List (String × ℚ) :=
  (token_contrib mult tok + rest.1, token_sws mult tok ++ rest.2)

/-- The `while i < len(tokens)` walk of `analyze_sentiment` (lines 188-229):
an intensifier consumes the next token with multiplier 1.5; a negation (also
after an intensifier) consumes the next token multiplying by -1; a modifier in
final position consumes nothing and is scored itself with multiplier 1. -/
def score_tokens : List String → ℚ × List (String × ℚ)
  | [] => (0, [])
  | t :: rest =>
    if rs_intensifiers.contains t then
      match rest with
      | [] => score_step 1 t (0, [])
      | t1 :: rest1 =>
        if rs_negations.contains t1 then
          match rest1 with
          | [] => score_step (3/2) t1 (score_tokens [])
          | t2 :: rest2 => score_step ((3/2) * (-1)) t2 (score_tokens rest2)
        else score_step (3/2) t1 (score_tokens rest1)
    else if rs_negations.contains t then
      match rest with
      | [] => score_step 1 t (0, [])
      | t1 :: rest1 => score_step (-1 : ℚ) t1 (score_tokens rest1)
    else score_step 1 t (score_tokens rest)

/-- Number of matches of a `{minLen,}`-style run pattern: maximal runs of the
class with at least `minLen` characters each count once (greedy `findall`). -/
def countMatchRuns (p : Char → Bool) (minLen : Nat) (l : List Char) : Nat :=
  ((runsBy p l).filter (fun r => minLen ≤ r.length)).length

/-- Number of occurrences of characters from a one-character class. -/
def countIn (cls : List Char) (l : List Char) : Nat :=
  (l.filter (fun c => cls.contains c)).length

/-- `[♥♡❤️💕💖]` — the Python class contains the heart, the variation selector
U+FE0F from the `❤️` sequence, and the two-heart emoji. -/
def heart_chars : List Char := ['♥', '♡', '❤', Char.ofNat 0xFE0F, '💕', '💖']

def pos_emoji_chars : List Char := ['😊', '😂', '🤣', '😍', '🥰']

def neg_emoji_chars : List Char := ['😢', '😭', '😔', '😞', '😠']

/-- `_analyze_patterns` (lines 247-263).  It runs on the preprocessed
(lower-cased) text, so the `[A-ZА-Я]{4,}` caps pattern is kept as written even
though it can no longer match after lower-casing. -/
def analyze_patterns (text : List Char) : ℚ :=
  let pattern_score : ℚ :=
    (countMatchRuns (fun c => c = '!') 2 text : ℚ) * (13/10)
    + (countMatchRuns (fun c => c = '?') 2 text : ℚ) * (-(1/2))
    + (countMatchRuns (fun c => c = '.') 3 text : ℚ) * (-(7/10))
    + (countMatchRuns (fun c => isAsciiUp c || ('А' ≤ c && c ≤ 'Я')) 4 text : ℚ) * (8/10)
    + (countIn heart_chars text : ℚ) * (12/10)
    + (countIn pos_emoji_chars text : ℚ) * (3/2)
    + (countIn neg_emoji_chars text : ℚ) * (-(3/2))
  let words_count := (pySplit text).length
  if 0 < words_count then pattern_score * min 2 ((words_count : ℚ) / 50)
  else pattern_score

/-- Python `round(x, n)`, round-half-to-even on exact rationals. -/
def pyRound (x : ℚ) : ℤ :=
  let f := ⌊x⌋
  if x - f < 1/2 then f
  else if 1/2 < x - f then f + 1
  else if 2 ∣ f then f else f + 1

def roundTo (x : ℚ) (n : ℕ) : ℚ := (pyRound (x * 10 ^ n) : ℚ) / 10 ^ n

/-- `analyze_sentiment` (lines 169-245) up to and including the
`normalized_score` of lines 236-240, before the clamp of line 243; the early
returns of lines 171-181 yield `(0, [])` there, on which the final
clamp-and-round below is the identity, so the staging is faithful. -/
def analyze_core (text : String) : ℚ × List (String × ℚ) :=
  if text = "" || (pyStrip text.toList).length < 3 then (0, [])
  else
    let t := preprocess_text text
    let tokens := rs_tokenize t
    if tokens = [] then (0, [])
    else
      let sr := score_tokens tokens
      let score := sr.1 + analyze_patterns t.toList
      let normalized :=
        if sr.2 ≠ [] then score / (sr.2.length : ℚ) * 10 else 0
      (normalized, sr.2)

/-- `analyze_sentiment`: clamp to [-10, 10] and round to 2 decimals. -/
def analyze_sentiment (text : String) : ℚ × List (String × ℚ) :=
  ((roundTo (clamp10 (analyze_core text).1) 2), (analyze_core text).2)

/-- `analyze_russian_sentiment` (lines 288-291). -/
def analyze_russian_sentiment (text : String) : ℚ :=
  (analyze_sentiment text).1

/-! ### diary/analysis_utils.py: analyze_text_sentiment (lines 11-40) -/

/-- The non-exception path of `analyze_text_sentiment`.  TextBlob is an
external collaborator: its `polarity * 10` value enters as the input
`english_score` (the final clamp bounds the result whatever that value is). -/
def analyze_text_sentiment (text : String) (english_score : ℚ)
    (user_mood_value : Option ℚ) : ℚ :=
  let russian_score := analyze_russian_sentiment text
  let combined_score := russian_score * (8/10) + english_score * (2/10)
  let combined_score :=
    match user_mood_value with
    | some v => combined_score * (7/10) + v * (3/10)
    | none => combined_score
  clamp10 (roundTo combined_score 1)

example : analyze_russian_sentiment "хорошо" = 10 := by decide
example : analyze_russian_sentiment "не хорошо" = 10 := by decide
example : analyze_russian_sentiment "нет хорошо" = -10 := by decide
example : (analyze_core "очень хорошо").1 = 15 := by decide
example : analyze_russian_sentiment "очень хорошо" = 10 := by decide
example : rs_tokenize (preprocess_text "не хорошо") = ["хорошо"] := by decide

/-! ### Claims C1-C4 -/

/-- Claim C1: for every input text, every external TextBlob polarity input and
every optional user mood value, the sentiment score returned by
`analyze_text_sentiment` lies within the fixed output range [-10, 10]
inclusive. -/
theorem c1_sentiment_score_in_range (text : String) (english_score : ℚ)
    (user_mood_value : Option ℚ) :
    -10 ≤ analyze_text_sentiment text english_score user_mood_value ∧
    analyze_text_sentiment text english_score user_mood_value ≤ 10 :=
  clamp10_mem _

/-- Claim C2: updating a pre-existing correlation (score s, count c) with a
new sentiment score x and increment k sets the count to c + k and the score to
the weighted average s·(c/(c+k)) + x·(k/(c+k)) clamped to the output range;
consequently any nonempty sequence of in-range (score, weight) updates starting
from no record ends at the weighted mean Σ(score·weight)/Σ(weight) with
occurrence count Σ(weight). -/
theorem c2_correlation_weighted_mean :
    (∀ (s : ℚ) (c : ℕ) (x : ℚ) (k : ℕ),
      update_correlation (some ⟨s, c⟩) x k =
        ⟨clamp10 (s * ((c : ℚ) / ((c : ℚ) + (k : ℚ))) +
                  x * ((k : ℚ) / ((c : ℚ) + (k : ℚ)))), c + k⟩) ∧
    (∀ l : List (ℚ × ℕ), l ≠ [] →
      (∀ u ∈ l, -10 ≤ u.1 ∧ u.1 ≤ 10 ∧ 1 ≤ u.2) →
      apply_updates l = some ⟨wsum l / (wtotal l : ℚ), wtotal l⟩) := by
  constructor
  · intro s c x k
    simp only [update_correlation, Correlation.mk.injEq]
    constructor
    · push_cast
      rfl
    · trivial
  · intro l hne hall
    obtain ⟨u, rest, rfl⟩ : ∃ u rest, l = u :: rest := by
      cases l with
      | nil => exact absurd rfl hne
      | cons a b => exact ⟨a, b, rfl⟩
    obtain ⟨hx0, hx1, hk⟩ := hall u (List.mem_cons_self u rest)
    have hkq : (0 : ℚ) < (u.2 : ℚ) := by exact_mod_cast hk
    have hfirst : update_correlation none u.1 u.2
        = ⟨u.1 * (u.2 : ℚ) / (u.2 : ℚ), u.2⟩ := by
      simp only [update_correlation, Correlation.mk.injEq]
      constructor
      · rw [mul_div_assoc, div_self (ne_of_gt hkq), mul_one]
      · trivial
    rw [apply_updates, List.foldl_cons, hfirst,
      apply_updates_go rest (u.1 * (u.2 : ℚ)) u.2 hk (by nlinarith) (by nlinarith)
        (fun v hv => hall v (List.mem_cons_of_mem u hv))]
    rw [wsum_cons, wtotal_cons]
    congr 1
    rw [Correlation.mk.injEq]
    constructor
    · push_cast
      ring_nf
    · rfl

/-- Witness for C2: the spec's own instance — updates (score 2, weight 1) then
(score 8, weight 1) on an empty record yield score 5.0 and occurrence count 2. -/
theorem c2_correlation_weighted_mean_witness :
    apply_updates [((2 : ℚ), 1), ((8 : ℚ), 1)] = some ⟨5, 2⟩ := by
  have h := c2_correlation_weighted_mean.2 [((2 : ℚ), 1), ((8 : ℚ), 1)]
    (by decide) (by decide)
  rw [h]
  decide

/-- Claim C3 (code-bug evidence): with the built-in lexicon — where "хорошо"
matches the positive stem "хорош" and "не" is listed among the negations — the
phrase "не хорошо" scores 10, identical to "хорошо" alone: the sign is NOT
flipped, because `tokenize` (line 165) drops every token of length ≤ 2,
including the negation "не", before the negation handling of lines 202-209 can
see it.  A 3-letter negation such as "нет" does flip the sign, showing the
negation machinery itself works when its token survives tokenization. -/
theorem c3_negation_dropped_by_tokenizer :
    rs_negations.contains "не" = true ∧
    rs_tokenize (preprocess_text "не хорошо") = ["хорошо"] ∧
    analyze_russian_sentiment "не хорошо" = analyze_russian_sentiment "хорошо" ∧
    analyze_russian_sentiment "хорошо" = 10 ∧
    analyze_russian_sentiment "нет хорошо" = -10 := by
  exact ⟨by decide, by decide, by decide, by decide, by decide⟩

/-- Claim C4 counterexample: the score returned for "очень хорошо" equals the
one for "хорошо" — both clamp to 10 — so it is not strictly larger. -/
theorem c4_intensified_score_not_strictly_larger :
    analyze_russian_sentiment "очень хорошо" = 10 ∧
    analyze_russian_sentiment "хорошо" = 10 ∧
    ¬ (analyze_russian_sentiment "хорошо" < analyze_russian_sentiment "очень хорошо") := by
  exact ⟨by decide, by decide, by decide⟩

/-- Claim C4 amended: the intensifier does amplify the contribution — the
pre-clamp normalized score of "очень хорошо" is 15 versus 10 for "хорошо", and
the recorded sentiment-word contribution is 1.5 versus 1.0 — but both returned
scores clamp to 10, so the returned score is larger-or-equal, not strictly
larger. -/
theorem c4_intensifier_amplifies_before_clamp :
    (analyze_core "очень хорошо").1 = 15 ∧
    (analyze_core "хорошо").1 = 10 ∧
    (analyze_core "хорошо").1 < (analyze_core "очень хорошо").1 ∧
    (analyze_sentiment "очень хорошо").2 = [("хорошо", 3/2)] ∧
    (analyze_sentiment "хорошо").2 = [("хорошо", 1)] ∧
    analyze_russian_sentiment "очень хорошо" = analyze_russian_sentiment "хорошо" := by
  exact ⟨by decide, by decide, by decide, by decide, by decide, by decide⟩

/-! ### diary/models.py: DiaryEntry.save (lines 132-171) -/

/-- The writable fields of a `DiaryEntry` as they stand when `save` begins. -/
structure EntryState where
  text : String
  user_mood_tag : String
  user_mood_value : Option ℤ
  mood_score : Option ℚ
  deriving DecidableEq

/-- `self.MOOD_VALUES.get(tag, 0)` (models.py lines 21-27, 137). -/
def MOOD_VALUES (tag : String) : ℤ :=
  if tag = "excellent" then 10
  else if tag = "good" then 5
  else if tag = "neutral" then 0
  else if tag = "bad" then -5
  else if tag = "terrible" then -10
  else 0

/-- `analyze_text_sentiment` including its `try/except` (analysis_utils lines
13-40): `raises = true` is the case where an internal exception interrupts the
`try` block, whose `except` branch returns the user-supplied mood value when
present and 0 otherwise. -/
def analyze_text_sentiment_run (raises : Bool) (text : String) (english_score : ℚ)
    (user_mood_value : Option ℚ) : ℚ :=
  if raises then
    match user_mood_value with
    | some v => v
    | none => 0
  else analyze_text_sentiment text english_score user_mood_value

/-- Python `Counter` iteration order: distinct elements in first-occurrence
order (the counts come from `List.count`). -/
def dedupFirstAux : List String → List String → List String
  | [], acc => acc.reverse
  | w :: rest, acc =>
    if acc.contains w then dedupFirstAux rest acc
    else dedupFirstAux rest (w :: acc)

def dedupFirst (l : List String) : List String := dedupFirstAux l []

/-- Step 4 of `DiaryEntry.save` (lines 156-165): the `_update_correlation`
calls (word, mood_score, count) made when the entry has text and a score.
`Counter(keywords).items()` is the distinct keywords with their counts, and
the loop keeps those with `count >= 1`. -/
def corr_updates_for (text : String) (mood_score : Option ℚ) :
    List (String × ℚ × ℕ) :=
  match mood_score with
  | some s =>
    if text ≠ "" then
      let keywords := extract_keywords text
      let word_counts := (dedupFirst keywords).map (fun w => (w, keywords.count w))
      (word_counts.filter (fun it => 1 ≤ it.2)).map (fun it => (it.1, s, it.2))
    else []
  | none => []

/-- Result of one `DiaryEntry.save` call: the fields written back, whether
`super().save()` ran, and the `_update_correlation` calls made afterwards. -/
structure SaveResult where
  text : String
  user_mood_value : Option ℤ
  mood_score : Option ℚ
  word_count : ℕ
  saved : Bool
  corr_updates : List (String × ℚ × ℕ)
  deriving DecidableEq

/-- `DiaryEntry.save` (models.py lines 132-171).  Step 1: Python
`not self.user_mood_value` is true both for `None` and for `0`.  Step 3 runs
only when the stripped text has at least 10 characters; since
`analyze_text_sentiment` catches every internal error itself (lines 37-40 of
analysis_utils.py), the call returns normally — `raises` selects its
internal-error path — and the dead outer `except` of line 149 never fires.
Step 4's failures are likewise caught (lines 167-171), never aborting the
already-completed row write. -/
def DiaryEntry_save (e : EntryState) (raises : Bool) (english_score : ℚ) :
    SaveResult :=
  let umv :=
    if e.user_mood_tag ≠ "" ∧ (e.user_mood_value = none ∨ e.user_mood_value = some 0)
    then some (MOOD_VALUES e.user_mood_tag)
    else e.user_mood_value
  let word_count := if e.text ≠ "" then (pySplit e.text.toList).length else 0
  let mood_score :=
    if e.text ≠ "" ∧ 10 ≤ (pyStrip e.text.toList).length
    then some (analyze_text_sentiment_run raises e.text english_score
                 (umv.map (fun z => (z : ℚ))))
    else e.mood_score
  ⟨e.text, umv, mood_score, word_count, true,
   if e.text ≠ "" then corr_updates_for e.text mood_score else []⟩

example :
    (DiaryEntry_save ⟨"сегодня хорошо поработал", "good", none, none⟩ false 0).mood_score
      = some (7.1 : ℚ) := by decide

/-! ### Claims C7, C9, C10 -/

/-- Claim C7: if an internal error is raised during sentiment scoring, the
scorer returns the user-supplied mood value when one is present and the
neutral score 0 otherwise, and the entry save still completes — the row write
(`super().save()`) runs unconditionally after the scoring step. -/
theorem c7_scoring_failure_fallback (text : String) (english : ℚ) (v : ℚ)
    (e : EntryState) :
    analyze_text_sentiment_run true text english (some v) = v ∧
    analyze_text_sentiment_run true text english none = 0 ∧
    (DiaryEntry_save e true english).saved = true :=
  ⟨rfl, rfl, rfl⟩

/-- Claim C9: for an entry whose text strips to fewer than 10 characters and
whose sentiment score is unset (a new entry), save leaves the score unset,
makes no correlation update calls, still persists the row, and sets the word
count to the whitespace-token count of the text. -/
theorem c9_short_text_skips_analysis (e : EntryState) (raises : Bool)
    (english : ℚ) (hshort : (pyStrip e.text.toList).length < 10)
    (hnew : e.mood_score = none) :
    (DiaryEntry_save e raises english).mood_score = none ∧
    (DiaryEntry_save e raises english).corr_updates = [] ∧
    (DiaryEntry_save e raises english).saved = true ∧
    (DiaryEntry_save e raises english).word_count =
      (if e.text ≠ "" then (pySplit e.text.toList).length else 0) := by
  have hc : ¬ (e.text ≠ "" ∧ 10 ≤ (pyStrip e.text.toList).length) := by
    rintro ⟨-, h10⟩
    omega
  refine ⟨?_, ?_, rfl, rfl⟩
  · simp only [DiaryEntry_save, if_neg hc]
    exact hnew
  · simp only [DiaryEntry_save, if_neg hc, hnew, corr_updates_for]
    split
    · rfl
    · rfl

/-- Witness for C9 at a concrete five-character entry. -/
theorem c9_short_text_skips_analysis_witness :
    (DiaryEntry_save ⟨"плохо", "neutral", none, none⟩ false 0).mood_score = none ∧
    (DiaryEntry_save ⟨"плохо", "neutral", none, none⟩ false 0).corr_updates = [] ∧
    (DiaryEntry_save ⟨"плохо", "neutral", none, none⟩ false 0).saved = true ∧
    (DiaryEntry_save ⟨"плохо", "neutral", none, none⟩ false 0).word_count =
      (if ("плохо" : String) ≠ "" then (pySplit ("плохо" : String).toList).length else 0) :=
  c9_short_text_skips_analysis ⟨"плохо", "neutral", none, none⟩ false 0
    (by decide) rfl

lemma ruLow_char_not_digit {c : Char} (h : isRuLow c = true) :
    isDigitCh c = false ∧ isWordCh c = true := by
  constructor
  · apply Bool.eq_false_iff.mpr
    intro hd
    simp only [isDigitCh, Bool.and_eq_true, decide_eq_true_eq] at hd
    simp only [isRuLow, Bool.or_eq_true, Bool.and_eq_true, decide_eq_true_eq] at h
    rcases h with ⟨h1, -⟩ | rfl
    · have ha : 1072 ≤ c.toNat := h1
      have hb : c.toNat ≤ 57 := hd.2
      omega
    · exact absurd hd (by decide)
  · simp [isWordCh, h]

lemma dedupFirstAux_subset :
    ∀ (l acc : List String) (w : String), w ∈ dedupFirstAux l acc → w ∈ l ∨ w ∈ acc := by
  intro l
  induction l with
  | nil =>
    intro acc w h
    right
    simpa [dedupFirstAux] using h
  | cons x rest ih =>
    intro acc w h
    rw [dedupFirstAux] at h
    by_cases hx : acc.contains x
    · rw [if_pos hx] at h
      rcases ih acc w h with h1 | h2
      · exact Or.inl (List.mem_cons_of_mem x h1)
      · exact Or.inr h2
    · rw [if_neg hx] at h
      rcases ih (x :: acc) w h with h1 | h2
      · exact Or.inl (List.mem_cons_of_mem x h1)
      · rcases List.mem_cons.1 h2 with rfl | h3
        · exact Or.inl (List.mem_cons_self _ _)
        · exact Or.inr h3

lemma dedupFirst_subset {l : List String} {w : String} (h : w ∈ dedupFirst l) :
    w ∈ l := by
  rcases dedupFirstAux_subset l [] w h with h1 | h2
  · exact h1
  · simp at h2

lemma corr_updates_for_mem {text : String} {m : Option ℚ} {w : String} {s : ℚ}
    {k : ℕ} (h : (w, s, k) ∈ corr_updates_for text m) :
    w ∈ extract_keywords text := by
  match m with
  | none => simp [corr_updates_for] at h
  | some x =>
    rw [corr_updates_for] at h
    by_cases ht : text ≠ ""
    · rw [if_pos ht] at h
      rw [List.mem_map] at h
      obtain ⟨it, hit, heq⟩ := h
      rw [List.mem_filter] at hit
      obtain ⟨hit1, -⟩ := hit
      rw [List.mem_map] at hit1
      obtain ⟨v, hv, rfl⟩ := hit1
      have hw : v = w := congrArg Prod.fst heq
      rw [← hw]
      exact dedupFirst_subset hv
    · rw [if_neg ht] at h
      simp at h

/-- Claim C10: every keyword produced by `extract_keywords` — and hence every
word handed to `_update_correlation` (the words of the Keyword records created
on the save path) — consists solely of lower-case Cyrillic letters (hence no
digits and no punctuation), has length 4 to 12, and is not a stop word. -/
theorem c10_extracted_keyword_shape :
    (∀ (text w : String), w ∈ extract_keywords text →
      w.toList.all isRuLow = true ∧ 4 ≤ w.length ∧ w.length ≤ 12 ∧
      ak_stop_words.contains w = false ∧
      w.toList.all (fun c => !(isDigitCh c) && isWordCh c) = true) ∧
    (∀ (e : EntryState) (raises : Bool) (english : ℚ) (w : String) (s : ℚ) (k : ℕ),
      (w, s, k) ∈ (DiaryEntry_save e raises english).corr_updates →
      w ∈ extract_keywords e.text) := by
  constructor
  · intro text w hw
    rw [extract_keywords, List.mem_filter] at hw
    obtain ⟨hw1, hpred⟩ := hw
    rw [List.mem_map] at hw1
    obtain ⟨run, hrun, rfl⟩ := hw1
    rw [findRuWords, List.mem_filter] at hrun
    obtain ⟨-, hprop⟩ := hrun
    simp only [Bool.and_eq_true, decide_eq_true_eq] at hprop
    obtain ⟨⟨hall, h4⟩, h12⟩ := hprop
    simp only [Bool.and_eq_true, Bool.not_eq_true', decide_eq_true_eq] at hpred
    refine ⟨hall, h4, h12, hpred.1, ?_⟩
    rw [List.all_eq_true] at hall ⊢
    intro c hc
    obtain ⟨hd, hwc⟩ := ruLow_char_not_digit (hall c hc)
    simp [hd, hwc]
  · intro e raises english w s k hmem
    simp only [DiaryEntry_save] at hmem
    by_cases ht : e.text ≠ ""
    · rw [if_pos ht] at hmem
      exact corr_updates_for_mem hmem
    · rw [if_neg ht] at hmem
      simp at hmem

/-- Witness for C10 at a concrete text and keyword. -/
theorem c10_extracted_keyword_shape_witness :
    ("работа" : String).toList.all isRuLow = true ∧
    4 ≤ ("работа" : String).length ∧ ("работа" : String).length ≤ 12 ∧
    ak_stop_words.contains "работа" = false ∧
    ("работа" : String).toList.all (fun c => !(isDigitCh c) && isWordCh c) = true :=
  c10_extracted_keyword_shape.1 "Сегодня работа шла хорошо!" "работа" (by decide)

/-! ### diary/management/commands/recalculate.py: Command.recalculate_for_user -/

/-- The `stop_words` set of `Command.extract_meaningful_words`
(recalculate.py lines 54-67). -/
def cmd_stop_words : List String :=
  ["это", "вот", "какой", "который", "сегодня", "завтра", "вчера",
   "очень", "просто", "можно", "нужно", "будет", "есть", "был",
   "была", "было", "были", "весь", "все", "всё", "сам", "сама",
   "само", "сами", "раз", "два", "три", "год", "года", "лет",
   "человек", "люди", "жизнь", "деньги", "дом", "город", "страна",
   "мир", "слово", "дела", "руки", "глаза", "вода", "земля",
   "небо", "солнце", "луна", "звезда", "воздух", "записи",
   "запись", "ключевые", "корреляций", "настроение", "анализ",
   "система", "проект", "данные", "пользователь", "сервис",
   "дневник", "модель", "программа", "тест", "тестирование",
   "может", "хотя", "когда", "потому", "такой", "такие", "такая",
   "такое", "таким", "такими", "каждая", "каждое", "каждый"]

/-- `Command.extract_meaningful_words` (recalculate.py lines 41-78):
lower-case, collapse punctuation and digits, take the `\b[а-яё]{3,15}\b`
matches, then drop stop words, words shorter than 4, and infinitive forms
ending in "ться"/"тся". -/
def extract_meaningful_words (text : String) : List String :=
  let t := ((text.toList.map toLowerRu).map subNonWord).map subDigit
  let words := (findRuWords 3 15 t).map (fun w => String.mk w)
  words.filter (fun w => !(cmd_stop_words.contains w) && 4 ≤ w.length &&
    !(strEndsIn "ться" w) && !(strEndsIn "тся" w))

/-- One stored diary entry as the recalculation paths read it. -/
structure EntryRow where
  text : String
  mood_score : Option ℚ
  deriving DecidableEq

/-- `.exclude(mood_score__isnull=True)`: the user's qualifying entries. -/
def qualEntries (entries : List EntryRow) : List EntryRow :=
  entries.filter (fun e => e.mood_score ≠ none)

/-- The per-entry sentiment scores collected for one word
(`word_stats[word]['mood_scores']`): each qualifying entry whose word set —
`set(extract_meaningful_words(text))`, each word once per entry — contains the
word contributes its score once, in entry order. -/
def scores_for (w : String) (entries : List EntryRow) : List ℚ :=
  (qualEntries entries).filterMap (fun e =>
    match e.mood_score with
    | some s => if (extract_meaningful_words e.text).contains w then some s else none
    | none => none)

/-- The number of distinct qualifying entries containing the word
(`word_stats[word]['count']`). -/
def entry_count (w : String) (entries : List EntryRow) : ℕ :=
  ((qualEntries entries).filter
    (fun e => (extract_meaningful_words e.text).contains w)).length

/-- `Command.recalculate_for_user` (recalculate.py lines 100-151) as the map
from the user's entries and prior per-word correlation state to the new state.
With fewer than 3 qualifying entries it returns before touching anything;
otherwise it deletes all of the user's rows and creates one row per word whose
stats pass `stats['count'] >= 2 and len(stats['mood_scores']) >= 2` (a single
condition, the two numbers being incremented together), carrying the mean of
the per-entry scores and the entry count. -/
def recalculate_for_user (entries : List EntryRow)
    (st : String → Option (ℚ × ℕ)) : String → Option (ℚ × ℕ) :=
  if (qualEntries entries).length < 3 then st
  else fun w =>
    let scores := scores_for w entries
    if 2 ≤ scores.length then
      some (scores.sum / (scores.length : ℚ), scores.length)
    else none

/-! ### diary/signals.py: recalculate_user_correlations (lines 228-283)

The signal-path variant differs from the command in two ways relevant to the
claims: it deletes all of the user's correlations BEFORE its minimum-count
check, and that check counts all entries, scored or not.  Its word extractor
filters through `ALL_STOPWORDS`, which includes the external nltk Russian
stop-word corpus that is not part of this repository, so the extractor is a
parameter here; the behaviour the claims turn on is independent of it. -/

def recalculate_user_correlations (extractor : String → List String)
    (entries : List EntryRow) (st : String → Option (ℚ × ℕ)) :
    String → Option (ℚ × ℕ) :=
  let deleted : String → Option (ℚ × ℕ) := fun _ => none
  if entries.length < 3 then deleted
  else fun w =>
    let scores := (entries.filter (fun e => e.mood_score ≠ none)).filterMap (fun e =>
      match e.mood_score with
      | some s => if (extractor e.text).contains w then some s else none
      | none => none)
    if 2 ≤ scores.length then
      some (scores.sum / (scores.length : ℚ), scores.length)
    else none

/-- Two qualifying entries, both containing "работа", scores 4 and 6. -/
def two_entries : List EntryRow :=
  [⟨"работа была трудная", some 4⟩, ⟨"работа была успешная", some 6⟩]

/-- The same two entries plus a third qualifying entry without "работа". -/
def three_entries : List EntryRow :=
  [⟨"работа была трудная", some 4⟩, ⟨"работа была успешная", some 6⟩,
   ⟨"погода стояла пасмурная", some 0⟩]

/-- A prior correlation state holding one row, for the frame claims. -/
def prior_state : String → Option (ℚ × ℕ) :=
  fun w => if w = "спорт" then some (3, 4) else none

example : (extract_meaningful_words "работа была трудная").contains "работа" = true := by decide
example : (extract_meaningful_words "погода стояла пасмурная").contains "работа" = false := by decide
example : scores_for "работа" three_entries = [4, 6] := by decide

/-! ### Claims C5, C6, C8 -/

lemma filterMap_scores_length (w : String) :
    ∀ (l : List EntryRow), (∀ e ∈ l, e.mood_score ≠ none) →
      (l.filterMap (fun e =>
        match e.mood_score with
        | some s => if (extract_meaningful_words e.text).contains w then some s else none
        | none => none)).length
      = (l.filter (fun e => (extract_meaningful_words e.text).contains w)).length := by
  intro l
  induction l with
  | nil => intro _; rfl
  | cons e l ih =>
    intro h
    have he := h e (List.mem_cons_self e l)
    obtain ⟨s, hs⟩ := Option.ne_none_iff_exists'.mp he
    have ht := ih (fun x hx => h x (List.mem_cons_of_mem e hx))
    rw [List.filterMap_cons, List.filter_cons, hs]
    by_cases hc : (extract_meaningful_words e.text).contains w
    · simp only [hc, if_pos, if_true, List.length_cons, ht]
    · simp only [hc, Bool.false_eq_true, if_false, ht]

lemma scores_for_length (w : String) (entries : List EntryRow) :
    (scores_for w entries).length = entry_count w entries := by
  rw [scores_for, entry_count]
  apply filterMap_scores_length
  intro e he
  rw [qualEntries, List.mem_filter] at he
  simpa using he.2

/-- Claim C5 amended, general part: once at least 3 qualifying entries exist,
`recalculate_for_user` gives a correlation row to exactly the words occurring
in at least 2 distinct qualifying entries, whose score is the arithmetic mean
of the per-entry sentiment scores of the entries containing the word and whose
occurrence count is the number of those entries. -/
theorem c5_recalculate_builds_means (entries : List EntryRow)
    (st : String → Option (ℚ × ℕ)) (w : String) (s : ℚ) (c : ℕ)
    (h3 : 3 ≤ (qualEntries entries).length) :
    recalculate_for_user entries st w = some (s, c) ↔
      2 ≤ entry_count w entries ∧
      s = (scores_for w entries).sum / (entry_count w entries : ℚ) ∧
      c = entry_count w entries := by
  rw [recalculate_for_user, if_neg (by omega : ¬ (qualEntries entries).length < 3)]
  by_cases h2 : 2 ≤ (scores_for w entries).length
  · have h2' := h2
    rw [scores_for_length] at h2'
    rw [if_pos h2, Option.some.injEq, Prod.mk.injEq, scores_for_length]
    constructor
    · rintro ⟨h1, hc2⟩
      exact ⟨h2', h1.symm, hc2.symm⟩
    · rintro ⟨-, h1, hc2⟩
      exact ⟨h1.symm, hc2.symm⟩
  · rw [if_neg h2]
    constructor
    · intro h
      exact absurd h (by simp)
    · rintro ⟨hge, -, -⟩
      rw [scores_for_length] at h2
      exact absurd hge h2

/-- Claim C5 counterexample: with exactly the two qualifying entries of the
scenario — both containing "работа", scores 4 and 6 — `recalculate_for_user`
is below its minimum of 3 qualifying entries, returns without creating
anything, and in particular does not create the (score 5, count 2) row the
claim promises. -/
theorem c5_two_entries_create_nothing :
    recalculate_for_user two_entries (fun _ => none) "работа" = none ∧
    ¬ (recalculate_for_user two_entries (fun _ => none) "работа" = some (5, 2)) := by
  refine ⟨by decide, by decide⟩

/-- Witness for C5 (amended): with a third qualifying entry present, the two
"работа" entries with scores 4 and 6 yield the row (score 5, count 2). -/
theorem c5_recalculate_builds_means_witness :
    recalculate_for_user three_entries (fun _ => none) "работа" = some (5, 2) :=
  (c5_recalculate_builds_means three_entries (fun _ => none) "работа" 5 2
    (by decide)).mpr ⟨by decide, by decide, by decide⟩

/-- Claim C6 amended: the management command checks its minimum (3 entries
with a non-null score) before deleting anything and is a genuine no-op below
it; the signal-path `recalculate_user_correlations` deletes all of the user's
correlations before checking its minimum (which counts all entries, scored or
not), so below the minimum it leaves the user with no correlations instead of
the prior set. -/
theorem c6_below_minimum_frame :
    (∀ (entries : List EntryRow) (st : String → Option (ℚ × ℕ)),
      (qualEntries entries).length < 3 → recalculate_for_user entries st = st) ∧
    (∀ (extractor : String → List String) (entries : List EntryRow)
       (st : String → Option (ℚ × ℕ)), entries.length < 3 →
      recalculate_user_correlations extractor entries st = fun _ => none) := by
  constructor
  · intro entries st h
    rw [recalculate_for_user, if_pos h]
  · intro extractor entries st h
    simp only [recalculate_user_correlations, if_pos h]

/-- Claim C6 counterexample: a user with 2 entries (below the minimum) and one
existing correlation row; the signal-path recalculation wipes the row instead
of leaving the state unchanged. -/
theorem c6_signal_path_wipes_prior_rows :
    (qualEntries two_entries).length < 3 ∧
    prior_state "спорт" = some (3, 4) ∧
    recalculate_user_correlations extract_meaningful_words two_entries
      prior_state "спорт" = none := by
  refine ⟨by decide, by decide, by decide⟩

/-- Witness for C6 (amended) at the concrete two-entry user. -/
theorem c6_below_minimum_frame_witness :
    recalculate_for_user two_entries prior_state = prior_state ∧
    recalculate_user_correlations extract_meaningful_words two_entries prior_state
      = fun _ => none :=
  ⟨c6_below_minimum_frame.1 two_entries prior_state (by decide),
   c6_below_minimum_frame.2 extract_meaningful_words two_entries prior_state (by decide)⟩

/-- Claim C8: running a recalculation twice in a row with the same entries
produces the same correlation state as running it once — both for the
management command and for the signal-path variant. -/
theorem c8_recalculate_idempotent :
    (∀ (entries : List EntryRow) (st : String → Option (ℚ × ℕ)),
      recalculate_for_user entries (recalculate_for_user entries st)
        = recalculate_for_user entries st) ∧
    (∀ (extractor : String → List String) (entries : List EntryRow)
       (st : String → Option (ℚ × ℕ)),
      recalculate_user_correlations extractor entries
          (recalculate_user_correlations extractor entries st)
        = recalculate_user_correlations extractor entries st) := by
  constructor
  · intro entries st
    by_cases h : (qualEntries entries).length < 3
    · simp only [recalculate_for_user, if_pos h]
    · simp only [recalculate_for_user, if_neg h]
  · intro extractor entries st
    by_cases h : entries.length < 3
    · simp only [recalculate_user_correlations, if_pos h]
    · simp only [recalculate_user_correlations, if_neg h]
